import Mathlib

/-!
# Task server: shallow embedding and verification

This file embeds, in Lean 4, the storage / query layer of a small task
HTTP service written in Python, and proves (or refutes) the specification
claims about it.

The repository has two source variants:
* `server.py` — the strict variant: `TaskStorage` (in-memory dict id → Task
  plus a next-id counter), atomic temp-file-then-rename persistence,
  per-record validation on load, filtering and pagination in the handler;
* `storage.py` / `models.py` — the simple variant: `load_tasks` /
  `save_tasks` over a `Task` class (which defines `init` instead of
  `__init__`).

JSON documents are embedded as an inductive `Json` value type: the Python
standard library's `json.dumps` / `json.loads` (external to this
repository) are modelled as the identity on parsed documents, so a file's
content is represented by the abstract JSON value it parses to, with
separate cases for a missing file, a whitespace-only file, and malformed
JSON.  Python integers are `Int`; Python's `isinstance(x, int)` is
modelled faithfully, in particular it accepts booleans (`bool` is a
subtype of `int` in Python, `True == 1`, `False == 0`).
-/

namespace TaskServer

/-- A parsed JSON document, as produced by Python's `json.loads`:
strings, integers, non-integral numbers (kept opaque — no field of a task
record accepts them, so their numeric value never matters), booleans,
`null`, arrays, and objects.  An object is the association list of its
key/value pairs; Python keeps the *last* value for a duplicated key, which
`Json.getField` below reproduces. -/
inductive Json where
  | str (s : String)
  | int (n : Int)
  | float (repr : String)
  | bool (b : Bool)
  | null
  | arr (items : List Json)
  | obj (fields : List (String × Json))

/-- `dict.get(key)` on a Python dict built by `json.loads`: the value of
the last occurrence of `key`, or `None` (here `none`) when absent. -/
def Json.getField (key : String) : List (String × Json) → Option Json
  | [] => none
  | (k, v) :: rest =>
    match Json.getField key rest with
    | some w => some w
    | none => if k = key then some v else none

/-- The `Task` dataclass of `server.py`: fields in source order. -/
structure Task where
  title : String
  priority : String
  isDone : Bool
  id : Int
deriving DecidableEq, Repr

/-- `ALLOWED_PRIORITIES = {"low", "normal", "high"}` from `server.py`. -/
def ALLOWED_PRIORITIES : List String := ["low", "normal", "high"]

/-- Python's `isinstance(x, int)` on a JSON-loaded value: true for JSON
integers and also for JSON booleans, because `bool` is a subclass of
`int` in Python. -/
def pyIsInt : Json → Bool
  | .int _ => true
  | .bool _ => true
  | _ => false

/-- The integer value Python sees for a value passing `pyIsInt`
(`True == 1`, `False == 0`). -/
def pyToInt : Json → Int
  | .int n => n
  | .bool b => if b then 1 else 0
  | _ => 0

/-- One iteration of the validation loop of
`TaskStorage._load_from_file` (`server.py`): an array element is kept
exactly when it is an object whose `title` is a string, whose `priority`
is a string in `ALLOWED_PRIORITIES`, whose `isDone` is a boolean, and
whose `id` satisfies `isinstance(id, int) and id > 0`. -/
def validItem : Json → Option Task
  | .obj fields =>
    match Json.getField "title" fields, Json.getField "priority" fields,
          Json.getField "isDone" fields, Json.getField "id" fields with
    | some (.str title), some (.str priority), some (.bool is_done), some idJ =>
      if priority ∈ ALLOWED_PRIORITIES ∧ pyIsInt idJ = true ∧ 0 < pyToInt idJ then
        some ⟨title, priority, is_done, pyToInt idJ⟩
      else
        none
    | _, _, _, _ => none
  | _ => none

/-- The in-memory store of `TaskStorage`: the Python dict
`_tasks_by_id` is embedded as its insertion-ordered association list
(Python dicts preserve insertion order; updating an existing key keeps
its position), plus the `_next_task_id` counter. -/
structure TaskStorage where
  tasksById : List (Int × Task)
  nextTaskId : Int
deriving DecidableEq, Repr

/-- Python dict assignment `d[k] = v`: update in place when the key is
present, append otherwise. -/
def dictInsert (d : List (Int × Task)) (k : Int) (v : Task) : List (Int × Task) :=
  if d.any (fun p => p.1 = k) then
    d.map (fun p => if p.1 = k then (k, v) else p)
  else
    d ++ [(k, v)]

/-- Python `d.get(k)`. -/
def dictGet (d : List (Int × Task)) (k : Int) : Option Task :=
  (d.find? (fun p => p.1 = k)).map (fun p => p.2)

/-- `d.values()` of the store, in insertion order. -/
def storeTasks (st : TaskStorage) : List Task :=
  st.tasksById.map (fun p => p.2)

/-- The content of a file on disk *after a successful UTF-8 decode*:
missing, present but blank (whitespace only — `contents.strip()` is
empty), present but not valid JSON (`json.loads` raises
`JSONDecodeError`, which `_load_from_file` catches), or a parsed JSON
value.  A file whose bytes do not decode as UTF-8 is a separate case —
`f.read()` raises `UnicodeDecodeError` *before* the `try` — modelled by
`FileBytes` and `load_from_file_full` below. -/
inductive FileContent where
  | missing
  | blank
  | malformed
  | doc (j : Json)

/-- The validation loop of `_load_from_file`: walk the array,
accumulating the kept records in `loaded` (later duplicate ids
overwrite earlier ones, via `dictInsert`) and `max_id`. -/
def loadItems : List Json → List (Int × Task) → Int → List (Int × Task) × Int
  | [], loaded, maxId => (loaded, maxId)
  | item :: rest, loaded, maxId =>
    match validItem item with
    | some t => loadItems rest (dictInsert loaded t.id t) (max maxId t.id)
    | none => loadItems rest loaded maxId

/-- `TaskStorage._load_from_file` as run from `__init__` (which first
sets `_tasks_by_id = {}` and `_next_task_id = 1`): a missing file, a
blank file, malformed JSON, and a non-array document each leave the
fresh empty store; an array is validated element by element and the
counter becomes `max_id + 1`. -/
def loadFromFile (fc : FileContent) : TaskStorage :=
  match fc with
  | .missing => ⟨[], 1⟩
  | .blank => ⟨[], 1⟩
  | .malformed => ⟨[], 1⟩
  | .doc j =>
    match j with
    | .arr items =>
      let r := loadItems items [] 0
      ⟨r.1, r.2 + 1⟩
    | _ => ⟨[], 1⟩

/-- The raw state of the file as `_load_from_file` first meets it:
missing; present but holding bytes that are not valid UTF-8; or present
with bytes that decode, classified as in `FileContent`. -/
inductive FileBytes where
  | missing
  | notUtf8
  | blank
  | malformed
  | doc (j : Json)

/-- The exception `TaskStorage._load_from_file` can let escape: the
file is opened with `encoding="utf-8"` and `f.read()` runs *outside*
the later `try` (which catches only `json.JSONDecodeError`), so a file
whose bytes are not valid UTF-8 raises `UnicodeDecodeError` to the
caller. -/
inductive LoadError where
  | unicodeDecodeError
deriving DecidableEq, Repr

/-- The complete `TaskStorage._load_from_file` path, including the
read/decode step: invalid UTF-8 raises `UnicodeDecodeError`; every
other file state is handled without raising, as in `loadFromFile`. -/
def load_from_file_full (fb : FileBytes) : Except LoadError TaskStorage :=
  match fb with
  | .missing => .ok (loadFromFile .missing)
  | .notUtf8 => .error .unicodeDecodeError
  | .blank => .ok (loadFromFile .blank)
  | .malformed => .ok (loadFromFile .malformed)
  | .doc j => .ok (loadFromFile (.doc j))

/-- The sort order used by `list_tasks`: `tasks.sort(key=lambda t: t.id)`. -/
def taskLE (a b : Task) : Prop := a.id ≤ b.id

instance : DecidableRel taskLE := fun a b => inferInstanceAs (Decidable (a.id ≤ b.id))

instance : IsTotal Task taskLE := ⟨fun a b => Int.le_total a.id b.id⟩

instance : IsTrans Task taskLE := ⟨fun _ _ _ hab hbc => le_trans hab hbc⟩

/-- `TaskStorage.list_tasks(is_done=…, priority=…)`: copy the dict's
values, sort by id, then apply each provided filter.  Python's sort is a
stable merge sort; it is embedded as insertion sort, which computes a
permutation sorted under the same key (ids in the dict are unique, so
every sort by id produces the same list). -/
def list_tasks (st : TaskStorage) (is_done : Option Bool) (priority : Option String) :
    List Task :=
  let tasks := List.insertionSort taskLE (storeTasks st)
  let tasks1 :=
    match is_done with
    | none => tasks
    | some d => tasks.filter (fun t => t.isDone == d)
  match priority with
  | none => tasks1
  | some p => tasks1.filter (fun t => t.priority == p)

/-- `TaskStorage.create_task`: build the task with the current counter as
id, insert it, bump the counter.  (The subsequent
`_save_to_file_atomic()` call is modelled at the system level, in
`create_task_sys`.) -/
def create_task (st : TaskStorage) (title priority : String) : Task × TaskStorage :=
  let task : Task := ⟨title, priority, false, st.nextTaskId⟩
  (task, ⟨dictInsert st.tasksById task.id task, st.nextTaskId + 1⟩)

/-- `TaskStorage.mark_task_completed`: absent id → `False`, store
untouched, nothing written; present id → set `isDone = True` in place
(the dict value is mutated, which `dictInsert` at the same key
reproduces) and return `True`. -/
def mark_task_completed (st : TaskStorage) (task_id : Int) : Bool × TaskStorage :=
  match dictGet st.tasksById task_id with
  | none => (false, st)
  | some t =>
    (true, ⟨dictInsert st.tasksById task_id ⟨t.title, t.priority, true, t.id⟩, st.nextTaskId⟩)

/-- `asdict(t)` on the `Task` dataclass: an object with the fields in
declaration order. -/
def asdict (t : Task) : Json :=
  .obj [("title", .str t.title), ("priority", .str t.priority),
        ("isDone", .bool t.isDone), ("id", .int t.id)]

/-- The document `_save_to_file_atomic` serializes:
`[asdict(t) for t in self.list_tasks()]` — the full collection, sorted
ascending by id. -/
def saveDoc (st : TaskStorage) : Json :=
  .arr ((list_tasks st none none).map asdict)

/-- The two files `_save_to_file_atomic` touches: the destination
`tasks.txt` and the temporary `tasks.txt.tmp` (absent when `none`). -/
structure FS where
  dest : FileContent
  tmp : Option Json

/-- The points at which `_save_to_file_atomic` can be interrupted: before
the temp file is written, after the temp file is fully written but
before `os.replace`, and after the rename. -/
inductive SaveCrash where
  | beforeWrite
  | afterWrite
  | afterRename
deriving DecidableEq, Repr

/-- The file-system state left by `_save_to_file_atomic` when interrupted
at each point: the temp-file write touches only `tmp`; `os.replace`
atomically moves the temp file over the destination. -/
def save_to_file_atomic_crash (st : TaskStorage) (fs : FS) : SaveCrash → FS
  | .beforeWrite => fs
  | .afterWrite => ⟨fs.dest, some (saveDoc st)⟩
  | .afterRename => ⟨.doc (saveDoc st), none⟩

/-- The completed run of `_save_to_file_atomic`. -/
def save_to_file_atomic (st : TaskStorage) (fs : FS) : FS :=
  save_to_file_atomic_crash st fs .afterRename

/-- The whole system state of the server variant: the in-memory store and
the files. -/
structure Sys where
  store : TaskStorage
  fs : FS

/-- `create_task` followed by its `_save_to_file_atomic()` call. -/
def create_task_sys (s : Sys) (title priority : String) : Task × Sys :=
  let r := create_task s.store title priority
  (r.1, ⟨r.2, save_to_file_atomic r.2 s.fs⟩)

/-- `mark_task_completed` at the system level: only a successful
completion persists (the `return False` branch runs before the save). -/
def mark_task_completed_sys (s : Sys) (task_id : Int) : Bool × Sys :=
  let r := mark_task_completed s.store task_id
  if r.1 then (true, ⟨r.2, save_to_file_atomic r.2 s.fs⟩) else (false, s)

/-- A run of `_save_to_file_atomic` that raises instead of completing
(disk full, permission denied, …): the failure can leave anything in
the temp file — `tmpLeft` is partial or absent content on a failed
write, the complete document on a failure at `os.replace` — but
`os.replace` is the only operation that touches the destination and it
is atomic (no effect when it fails), so the destination is exactly the
prior file. -/
def save_to_file_atomic_failed (fs : FS) (tmpLeft : Option Json) : FS :=
  ⟨fs.dest, tmpLeft⟩

/-- `create_task` when the durable rewrite raises: the insert and the
counter bump have already happened when `_save_to_file_atomic()` is
entered, the exception propagates (`Except.error`), nothing is rolled
back, and the destination file is untouched whatever state (`tmpLeft`)
the failed save leaves in the temp file. -/
def create_task_sys_failing_save (s : Sys) (title priority : String)
    (tmpLeft : Option Json) : Except Unit Task × Sys :=
  let r := create_task s.store title priority
  (.error (), ⟨r.2, save_to_file_atomic_failed s.fs tmpLeft⟩)

/-- `mark_task_completed` when the durable rewrite raises: an absent id
returns `False` normally (the save is never reached); a present id has
already had `isDone` set in place when the save raises, so the
exception propagates with the mutation kept and the destination file
untouched. -/
def mark_task_completed_sys_failing_save (s : Sys) (task_id : Int)
    (tmpLeft : Option Json) : Except Unit Bool × Sys :=
  let r := mark_task_completed s.store task_id
  if r.1 then (.error (), ⟨r.2, save_to_file_atomic_failed s.fs tmpLeft⟩)
  else (.ok false, s)

/-- The pagination of `TaskApiHandler.do_GET` (`server.py`), after query
validation has produced optional non-negative `offset` and `limit`:
`start = offset or 0`; `tasks_page = [] if start > len(tasks) else
tasks[start:]`; then `tasks_page = tasks_page[:limit]` when a limit was
supplied. -/
def paginate (tasks : List Task) (offset limit : Option Nat) : List Task :=
  let start := (offset.getD 0)
  let tasks_page := if tasks.length < start then [] else tasks.drop start
  match limit with
  | none => tasks_page
  | some l => tasks_page.take l

/-- Python's `str.strip()` with no arguments: remove leading and
trailing whitespace.  (Embedded over the character list so that it
computes by kernel reduction; `String.trim` would not.) -/
def pyStrip (s : String) : String :=
  ⟨((s.data.dropWhile Char.isWhitespace).reverse.dropWhile Char.isWhitespace).reverse⟩

/-- The title/priority validation of `TaskApiHandler.do_POST` on
`POST /tasks`, given the `title` and `priority` members of the parsed
request object (`none` when absent): `title` must be a string with
non-blank `title.strip()`, `priority` a string in `ALLOWED_PRIORITIES`;
on success the store's `create_task(title.strip(), priority)` runs. -/
def do_POST_create (s : Sys) (titleJ priorityJ : Option Json) : Except Nat (Task × Sys) :=
  match titleJ with
  | some (.str title) =>
    if pyStrip title = "" then .error 400
    else
      match priorityJ with
      | some (.str priority) =>
        if priority ∈ ALLOWED_PRIORITIES then .ok (create_task_sys s (pyStrip title) priority)
        else .error 400
      | _ => .error 400
  | _ => .error 400

/-! ## The simple variant: `models.py` and `storage.py` -/

/-- An instance of the `Task` class of `models.py`.  The class defines a
method named `init`, not `__init__`, so constructing `Task(...)` never
runs it: the only way `load_tasks` builds an instance is `Task(**{})`,
which succeeds with *no attributes set*.  The type therefore has a
single, attribute-less value. -/
inductive PyTask where
  | attrless
deriving DecidableEq, Repr

/-- The Python exceptions `load_tasks` can let escape. -/
inductive PyErr where
  | typeError
deriving DecidableEq, Repr

/-- `Task(**item)` from `storage.py` with `models.Task`: since the class
has no `__init__`, the inherited `object.__init__` accepts no keyword
arguments — any non-empty object raises `TypeError`, an empty object
yields an attribute-less instance, and a non-object `item` raises
`TypeError` from the `**` unpacking itself. -/
def taskFromKwargs : Json → Except PyErr PyTask
  | .obj [] => .ok .attrless
  | .obj (_ :: _) => .error .typeError
  | _ => .error .typeError

/-- The list comprehension `[Task(**item) for item in data]`: stops at
the first raised exception. -/
def tasksFromItems : List Json → Except PyErr (List PyTask)
  | [] => .ok []
  | item :: rest =>
    match taskFromKwargs item with
    | .error e => .error e
    | .ok t =>
      match tasksFromItems rest with
      | .error e => .error e
      | .ok ts => .ok (t :: ts)

/-- `storage.load_tasks()`: missing or blank file → `[]`; malformed JSON
→ `[]` (only `json.JSONDecodeError` is caught); otherwise
`[Task(**item) for item in data]`, where iterating a non-list `data`
either raises `TypeError` (numbers, booleans, `null` are not iterable;
iterating a non-empty string or object yields strings, and `Task(**s)`
on a string raises `TypeError`) or yields `[]` (empty string or empty
object).  `TypeError` is not caught and propagates to the caller. -/
def load_tasks (fc : FileContent) : Except PyErr (List PyTask) :=
  match fc with
  | .missing => .ok []
  | .blank => .ok []
  | .malformed => .ok []
  | .doc j =>
    match j with
    | .arr items => tasksFromItems items
    | .str s => if s = "" then .ok [] else .error .typeError
    | .obj [] => .ok []
    | .obj (_ :: _) => .error .typeError
    | _ => .error .typeError

/-- The points at which `storage.save_tasks` can be interrupted:
`open('tasks.txt', 'w')` truncates the destination in place, then
`json.dump` writes the document into it.  There is no temporary file and
no rename. -/
inductive SaveTasksCrash where
  | beforeOpen
  | afterOpen
  | afterWrite
deriving DecidableEq, Repr

/-- The destination file left by `storage.save_tasks(tasks_list)` when
interrupted at each point, with `doc` the serialized document
`[task.to_dict() for task in tasks_list]`.  After the truncating open
and before the write completes, the file is empty. -/
def save_tasks_crash (doc : Json) (fs : FS) : SaveTasksCrash → FS
  | .beforeOpen => fs
  | .afterOpen => ⟨.blank, fs.tmp⟩
  | .afterWrite => ⟨.doc doc, fs.tmp⟩

/-- A sequence of `create_task` calls on a store: the list of returned
ids, in call order, and the final store. -/
def runCreates (st : TaskStorage) : List (String × String) → List Int × TaskStorage
  | [] => ([], st)
  | c :: rest =>
    let r := create_task st c.1 c.2
    let r2 := runCreates r.2 rest
    (r.1.id :: r2.1, r2.2)

/-- Whether a JSON value is an object. -/
def isObjItem : Json → Bool
  | .obj _ => true
  | _ => false

/-- Whether a JSON value is an object with at least one member. -/
def isNonemptyObjItem : Json → Bool
  | .obj (_ :: _) => true
  | _ => false

/-- A store is well-keyed when every dict entry maps an id to a task
carrying that id — true of every store the Python code builds, since
both the load loop and `create_task` insert at key `task.id`. -/
def WellKeyed (st : TaskStorage) : Prop :=
  ∀ p ∈ st.tasksById, p.1 = p.2.id

/-- The keys of the store's dict are distinct (true of every Python
dict by construction). -/
def KeysNodup (st : TaskStorage) : Prop :=
  (st.tasksById.map (fun p => p.1)).Nodup

/-! ## Lemmas about the Python-dict embedding -/

theorem dictInsert_of_fresh (d : List (Int × Task)) (k : Int) (v : Task)
    (h : ∀ p ∈ d, p.1 ≠ k) : dictInsert d k v = d ++ [(k, v)] := by
  unfold dictInsert
  rw [if_neg]
  intro hc
  rw [List.any_eq_true] at hc
  obtain ⟨p, hp, he⟩ := hc
  exact h p hp (of_decide_eq_true he)

theorem mem_dictInsert_self (d : List (Int × Task)) (k : Int) (v : Task) :
    (k, v) ∈ dictInsert d k v := by
  unfold dictInsert
  split
  · next h =>
    rw [List.any_eq_true] at h
    obtain ⟨p, hp, he⟩ := h
    have hm : (if p.1 = k then (k, v) else p) ∈
        d.map (fun q : Int × Task => if q.1 = k then (k, v) else q) :=
      List.mem_map_of_mem _ hp
    rwa [if_pos (of_decide_eq_true he)] at hm
  · exact List.mem_append_right _ (List.mem_singleton.mpr rfl)

theorem mem_dictInsert_of_ne (d : List (Int × Task)) (k : Int) (v : Task)
    (p : Int × Task) (hp : p ∈ d) (hne : p.1 ≠ k) : p ∈ dictInsert d k v := by
  unfold dictInsert
  split
  · have hm : (if p.1 = k then (k, v) else p) ∈
        d.map (fun q : Int × Task => if q.1 = k then (k, v) else q) :=
      List.mem_map_of_mem _ hp
    rwa [if_neg hne] at hm
  · exact List.mem_append_left _ hp

theorem mem_dictInsert_elim (d : List (Int × Task)) (k : Int) (v : Task)
    (p : Int × Task) (hp : p ∈ dictInsert d k v) : p = (k, v) ∨ (p ∈ d ∧ p.1 ≠ k) := by
  unfold dictInsert at hp
  split at hp
  · rw [List.mem_map] at hp
    obtain ⟨q, hq, he⟩ := hp
    by_cases hqk : q.1 = k
    · rw [if_pos hqk] at he
      exact Or.inl he.symm
    · rw [if_neg hqk] at he
      exact Or.inr ⟨he ▸ hq, he ▸ hqk⟩
  · next hany =>
    rw [List.mem_append] at hp
    rcases hp with hp | hp
    · refine Or.inr ⟨hp, fun he => hany ?_⟩
      rw [List.any_eq_true]
      exact ⟨p, hp, decide_eq_true he⟩
    · exact Or.inl (List.mem_singleton.mp hp)

theorem keys_map_update (d : List (Int × Task)) (k : Int) (v : Task) :
    (d.map (fun q : Int × Task => if q.1 = k then (k, v) else q)).map (fun p => p.1) =
      d.map (fun p => p.1) := by
  rw [List.map_map]
  apply List.map_congr_left
  intro p _
  by_cases h : p.1 = k <;> simp [h]

theorem keysNodup_dictInsert (d : List (Int × Task)) (k : Int) (v : Task)
    (h : (d.map (fun p => p.1)).Nodup) :
    ((dictInsert d k v).map (fun p => p.1)).Nodup := by
  unfold dictInsert
  split
  · rw [keys_map_update]
    exact h
  · next hany =>
    rw [List.map_append, List.nodup_append]
    refine ⟨h, List.nodup_singleton k, ?_⟩
    intro a ha hb
    simp only [List.map_cons, List.map_nil, List.mem_singleton] at hb
    rw [List.mem_map] at ha
    obtain ⟨p, hp, hpa⟩ := ha
    apply hany
    rw [List.any_eq_true]
    exact ⟨p, hp, decide_eq_true (by rw [hpa, hb])⟩

theorem find?_map_update_self (d : List (Int × Task)) (k : Int) (v : Task)
    (h : ∃ p ∈ d, p.1 = k) :
    (d.map (fun q : Int × Task => if q.1 = k then (k, v) else q)).find?
      (fun p => p.1 = k) = some (k, v) := by
  induction d with
  | nil => simp at h
  | cons q rest ih =>
    by_cases hqk : q.1 = k
    · simp [hqk, List.find?]
    · obtain ⟨p, hp, hpk⟩ := h
      rcases List.mem_cons.mp hp with hpq | hp'
      · exact absurd (hpq ▸ hpk) hqk
      · simp only [List.map_cons, if_neg hqk, List.find?]
        rw [decide_eq_false hqk]
        exact ih ⟨p, hp', hpk⟩

theorem find?_append_fresh (d : List (Int × Task)) (k : Int) (v : Task)
    (h : ∀ p ∈ d, p.1 ≠ k) :
    (d ++ [(k, v)]).find? (fun p => p.1 = k) = some (k, v) := by
  induction d with
  | nil => simp [List.find?]
  | cons q rest ih =>
    simp only [List.cons_append, List.find?]
    rw [decide_eq_false (h q (List.mem_cons_self q rest))]
    exact ih (fun p hp => h p (List.mem_cons_of_mem q hp))

theorem dictGet_dictInsert_self (d : List (Int × Task)) (k : Int) (v : Task) :
    dictGet (dictInsert d k v) k = some v := by
  unfold dictGet dictInsert
  split
  · next h =>
    rw [List.any_eq_true] at h
    obtain ⟨p, hp, he⟩ := h
    rw [find?_map_update_self d k v ⟨p, hp, of_decide_eq_true he⟩]
    rfl
  · next hany =>
    rw [find?_append_fresh d k v]
    · rfl
    · intro p hp he
      exact hany (List.any_eq_true.mpr ⟨p, hp, decide_eq_true he⟩)

theorem find?_map_update_ne (d : List (Int × Task)) (k : Int) (v : Task) (a : Int)
    (hne : a ≠ k) :
    (d.map (fun q : Int × Task => if q.1 = k then (k, v) else q)).find?
      (fun p => p.1 = a) = d.find? (fun p => p.1 = a) := by
  induction d with
  | nil => rfl
  | cons q rest ih =>
    by_cases hqk : q.1 = k
    · simp only [List.map_cons, if_pos hqk, List.find?]
      rw [decide_eq_false (fun h : k = a => hne h.symm),
          decide_eq_false (fun h : q.1 = a => hne (hqk ▸ h).symm)]
      exact ih
    · simp only [List.map_cons, if_neg hqk, List.find?]
      cases hd : decide (q.1 = a) with
      | true => rfl
      | false => exact ih

theorem dictGet_dictInsert_ne (d : List (Int × Task)) (k : Int) (v : Task) (a : Int)
    (hne : a ≠ k) : dictGet (dictInsert d k v) a = dictGet d a := by
  unfold dictGet dictInsert
  split
  · rw [find?_map_update_ne d k v a hne]
  · rw [List.find?_append]
    have : List.find? (fun p : Int × Task => p.1 = a) [(k, v)] = none := by
      simp only [List.find?]
      rw [decide_eq_false (fun h : k = a => hne h.symm)]
    rw [this]
    cases List.find? (fun p : Int × Task => p.1 = a) d <;> rfl

/-! ## C6 — pagination -/

/-- **C6** — For every task sequence and every optional non-negative
offset and limit, pagination applies offset then limit: a missing offset
behaves as offset 0; an offset at least the sequence length yields the
empty list (not an error); a present limit truncates the already-offset
result to at most `limit` items; `limit = 0` yields an empty page; and
on the four tasks with ids `[1, 2, 3, 4]`, `offset = 1, limit = 2`
yields the tasks with ids `[2, 3]`. -/
theorem C6_pagination (tasks : List Task) (offset limit : Option Nat) (off l : Nat) :
    paginate tasks none limit = paginate tasks (some 0) limit ∧
    (tasks.length ≤ off → paginate tasks (some off) limit = []) ∧
    (paginate tasks offset (some l)).length ≤ l ∧
    paginate tasks offset (some l) = (paginate tasks offset none).take l ∧
    paginate tasks offset (some 0) = [] ∧
    paginate
      [⟨"a", "low", false, 1⟩, ⟨"b", "low", false, 2⟩,
       ⟨"c", "low", false, 3⟩, ⟨"d", "low", false, 4⟩] (some 1) (some 2) =
      [⟨"b", "low", false, 2⟩, ⟨"c", "low", false, 3⟩] := by
  refine ⟨rfl, ?_, ?_, ?_, ?_, by decide⟩
  · intro h
    have hpage : (if tasks.length < off then [] else tasks.drop off) = [] := by
      split
      · rfl
      · next h2 =>
        have heq : off = tasks.length := le_antisymm (Nat.le_of_not_lt h2) h
        rw [heq, List.drop_length]
    cases limit <;> simp [paginate, hpage]
  · simp only [paginate, List.length_take]
    exact Nat.min_le_left _ _
  · rfl
  · cases offset <;> simp [paginate]

/-- Witness for C6: the hypothesis `tasks.length ≤ off` discharged at a
concrete input (four tasks, offset 7). -/
theorem C6_pagination_witness :
    ([⟨"a", "low", false, 1⟩, ⟨"b", "low", false, 2⟩,
      ⟨"c", "low", false, 3⟩, ⟨"d", "low", false, 4⟩] : List Task).length ≤ 7 ∧
    paginate
      [⟨"a", "low", false, 1⟩, ⟨"b", "low", false, 2⟩,
       ⟨"c", "low", false, 3⟩, ⟨"d", "low", false, 4⟩] (some 7) (some 2) = [] := by
  have h := C6_pagination
    [⟨"a", "low", false, 1⟩, ⟨"b", "low", false, 2⟩,
     ⟨"c", "low", false, 3⟩, ⟨"d", "low", false, 4⟩] (some 7) (some 2) 7 2
  exact ⟨by decide, h.2.1 (by decide)⟩

/-! ## C4 — markCompleted -/

/-- **C4** — For every system state and id: an absent id makes
`mark_task_completed` return `False` with the store and files unchanged
and nothing persisted; a present id makes it set that task's `isDone` to
`True` (all other fields unchanged), persist the collection, and return
`True`; a second call on the same id again returns `True` and leaves
`isDone = True`, with no error. -/
theorem C4_mark_completed (s : Sys) (tid : Int) :
    (dictGet s.store.tasksById tid = none →
      mark_task_completed_sys s tid = (false, s)) ∧
    (∀ t, dictGet s.store.tasksById tid = some t →
      (mark_task_completed_sys s tid).1 = true ∧
      dictGet (mark_task_completed_sys s tid).2.store.tasksById tid =
        some ⟨t.title, t.priority, true, t.id⟩ ∧
      (mark_task_completed_sys s tid).2.fs =
        ⟨.doc (saveDoc (mark_task_completed_sys s tid).2.store), none⟩ ∧
      (mark_task_completed_sys (mark_task_completed_sys s tid).2 tid).1 = true ∧
      dictGet
        (mark_task_completed_sys (mark_task_completed_sys s tid).2 tid).2.store.tasksById
        tid = some ⟨t.title, t.priority, true, t.id⟩) := by
  constructor
  · intro h
    simp [mark_task_completed_sys, mark_task_completed, h]
  · intro t h
    have h1 : mark_task_completed s.store tid =
        (true, ⟨dictInsert s.store.tasksById tid ⟨t.title, t.priority, true, t.id⟩,
                s.store.nextTaskId⟩) := by
      simp [mark_task_completed, h]
    have hsys : mark_task_completed_sys s tid =
        (true, ⟨⟨dictInsert s.store.tasksById tid ⟨t.title, t.priority, true, t.id⟩,
                 s.store.nextTaskId⟩,
                save_to_file_atomic
                  ⟨dictInsert s.store.tasksById tid ⟨t.title, t.priority, true, t.id⟩,
                   s.store.nextTaskId⟩ s.fs⟩) := by
      simp [mark_task_completed_sys, h1]
    rw [hsys]
    have hget1 :
        dictGet (dictInsert s.store.tasksById tid ⟨t.title, t.priority, true, t.id⟩) tid =
          some ⟨t.title, t.priority, true, t.id⟩ :=
      dictGet_dictInsert_self _ _ _
    refine ⟨rfl, hget1, rfl, ?_, ?_⟩
    · simp [mark_task_completed_sys, mark_task_completed, hget1]
    · simp only [mark_task_completed_sys, mark_task_completed, hget1]
      simp [dictGet_dictInsert_self]

/-- Witness for C4: a store holding task 1; the present-id hypothesis
discharged by evaluation. -/
theorem C4_mark_completed_witness :
    (mark_task_completed_sys
      ⟨⟨[(1, ⟨"a", "low", false, 1⟩)], 2⟩, ⟨.doc (.arr []), none⟩⟩ 1).1 = true ∧
    dictGet (mark_task_completed_sys
      ⟨⟨[(1, ⟨"a", "low", false, 1⟩)], 2⟩, ⟨.doc (.arr []), none⟩⟩ 1).2.store.tasksById 1 =
      some ⟨"a", "low", true, 1⟩ := by
  have h := (C4_mark_completed
    ⟨⟨[(1, ⟨"a", "low", false, 1⟩)], 2⟩, ⟨.doc (.arr []), none⟩⟩ 1).2
    ⟨"a", "low", false, 1⟩ (by decide)
  exact ⟨h.1, h.2.1⟩

/-! ## C10 — the simple variant's `load_tasks` and the `init` bug -/

/-- **C10 counterexample** — the claim asserts an uncaught `TypeError`
for *every* existing file whose content is a non-empty JSON array of
objects.  But `models.Task` merely lacks `__init__`, so `Task(**{})`
calls the inherited zero-argument constructor and succeeds: the file
`[{}]` — a non-empty array of (empty) objects — loads as a single
attribute-less instance with no error. -/
theorem C10_counterexample :
    load_tasks (.doc (.arr [.obj []])) = .ok [PyTask.attrless] ∧
    load_tasks (.doc (.arr [.obj []])) ≠ .error .typeError := by
  exact ⟨rfl, fun h => Except.noConfusion h⟩

/-- The list comprehension raises `TypeError` as soon as it meets a
non-empty object (keyword arguments passed to the default
constructor). -/
theorem tasksFromItems_error (items : List Json)
    (hobj : items.all isObjItem = true)
    (hne : items.any isNonemptyObjItem = true) :
    tasksFromItems items = .error .typeError := by
  induction items with
  | nil => simp at hne
  | cons item rest ih =>
    simp only [List.all_cons, Bool.and_eq_true] at hobj
    cases item with
    | obj fields =>
      cases fields with
      | nil =>
        simp only [List.any_cons] at hne
        have hne' : rest.any isNonemptyObjItem = true := by
          simpa [isNonemptyObjItem] using hne
        simp only [tasksFromItems, taskFromKwargs]
        rw [ih hobj.2 hne']
      | cons f fs =>
        simp [tasksFromItems, taskFromKwargs]
    | str s => simp [isObjItem] at hobj
    | int n => simp [isObjItem] at hobj
    | float r => simp [isObjItem] at hobj
    | bool b => simp [isObjItem] at hobj
    | null => simp [isObjItem] at hobj
    | arr xs => simp [isObjItem] at hobj

/-- **C10 (amended)** — For every existing file whose content is a
non-empty JSON array of objects *at least one of which has a member*,
`load_tasks` raises an uncaught `TypeError`: `models.Task` defines
`init` instead of `__init__`, so `Task(**item)` passes the keyword
arguments to the default constructor, which rejects them; only
`JSONDecodeError` is caught.  (An array whose objects are all empty
instead loads as attribute-less instances — the counterexample.) -/
theorem C10_load_tasks_raises (items : List Json)
    (hobj : items.all isObjItem = true)
    (hne : items.any isNonemptyObjItem = true) :
    load_tasks (.doc (.arr items)) = .error .typeError := by
  simpa [load_tasks] using tasksFromItems_error items hobj hne

/-- Witness for C10: the file `[{"id": 1}]`. -/
theorem C10_load_tasks_raises_witness :
    ([Json.obj [("id", Json.int 1)]].all isObjItem = true) ∧
    ([Json.obj [("id", Json.int 1)]].any isNonemptyObjItem = true) ∧
    load_tasks (.doc (.arr [Json.obj [("id", Json.int 1)]])) = .error .typeError :=
  ⟨rfl, rfl, C10_load_tasks_raises [Json.obj [("id", Json.int 1)]] rfl rfl⟩

/-! ## C9 — behavior when the durable rewrite fails -/

/-- **C9 counterexample** — the claim says a failed durable rewrite
leaves the in-memory store rolled back and consistent with the file.
Start from the empty store consistent with an empty persisted array and
let the rewrite of a create fail: the new task is still in memory (no
rollback), while the untouched file still loads as empty — memory and
disk disagree. -/
theorem C9_counterexample :
    (create_task_sys_failing_save ⟨⟨[], 1⟩, ⟨.doc (.arr []), none⟩⟩ "a" "low" none).2.store ≠
      (⟨[], 1⟩ : TaskStorage) ∧
    (create_task_sys_failing_save ⟨⟨[], 1⟩, ⟨.doc (.arr []), none⟩⟩ "a" "low" none).2.fs.dest =
      .doc (.arr []) ∧
    storeTasks (loadFromFile
        (create_task_sys_failing_save
          ⟨⟨[], 1⟩, ⟨.doc (.arr []), none⟩⟩ "a" "low" none).2.fs.dest) ≠
      storeTasks (create_task_sys_failing_save
        ⟨⟨[], 1⟩, ⟨.doc (.arr []), none⟩⟩ "a" "low" none).2.store :=
  ⟨by decide, rfl, by decide⟩

/-- **C9 (amended)** — If the durable rewrite fails during a mutation —
create or markCompleted — the failure surfaces as an exception for that
one request and, whatever the failure leaves in the temp file, the
rename never took effect so the prior destination file is untouched and
still loads exactly as before; but the in-memory mutation is *not*
rolled back: a failed create keeps the inserted task (found under the
id it was assigned) and the bumped counter, and a failed
markCompleted keeps `isDone = True`, so memory is no longer consistent
with disk. -/
theorem C9_failing_save_behavior (s : Sys) (title priority : String) (tid : Int)
    (tmpLeft : Option Json) :
    (create_task_sys_failing_save s title priority tmpLeft).1 = .error () ∧
    (create_task_sys_failing_save s title priority tmpLeft).2.fs.dest = s.fs.dest ∧
    loadFromFile (create_task_sys_failing_save s title priority tmpLeft).2.fs.dest =
      loadFromFile s.fs.dest ∧
    (create_task_sys_failing_save s title priority tmpLeft).2.store =
      (create_task s.store title priority).2 ∧
    (create_task_sys_failing_save s title priority tmpLeft).2.store.nextTaskId =
      s.store.nextTaskId + 1 ∧
    dictGet (create_task_sys_failing_save s title priority tmpLeft).2.store.tasksById
      s.store.nextTaskId = some ⟨title, priority, false, s.store.nextTaskId⟩ ∧
    (dictGet s.store.tasksById tid = none →
      mark_task_completed_sys_failing_save s tid tmpLeft = (.ok false, s)) ∧
    (∀ t, dictGet s.store.tasksById tid = some t →
      (mark_task_completed_sys_failing_save s tid tmpLeft).1 = .error () ∧
      (mark_task_completed_sys_failing_save s tid tmpLeft).2.fs.dest = s.fs.dest ∧
      loadFromFile (mark_task_completed_sys_failing_save s tid tmpLeft).2.fs.dest =
        loadFromFile s.fs.dest ∧
      (mark_task_completed_sys_failing_save s tid tmpLeft).2.store =
        (mark_task_completed s.store tid).2 ∧
      dictGet (mark_task_completed_sys_failing_save s tid tmpLeft).2.store.tasksById
        tid = some ⟨t.title, t.priority, true, t.id⟩) := by
  refine ⟨rfl, rfl, rfl, rfl, rfl, dictGet_dictInsert_self _ _ _, ?_, ?_⟩
  · intro h
    simp [mark_task_completed_sys_failing_save, mark_task_completed, h]
  · intro t h
    have h1 : mark_task_completed s.store tid =
        (true, ⟨dictInsert s.store.tasksById tid ⟨t.title, t.priority, true, t.id⟩,
                s.store.nextTaskId⟩) := by
      simp [mark_task_completed, h]
    have hsys : mark_task_completed_sys_failing_save s tid tmpLeft =
        (.error (), ⟨⟨dictInsert s.store.tasksById tid ⟨t.title, t.priority, true, t.id⟩,
                      s.store.nextTaskId⟩,
                     save_to_file_atomic_failed s.fs tmpLeft⟩) := by
      simp [mark_task_completed_sys_failing_save, h1]
    rw [hsys, h1]
    exact ⟨rfl, rfl, rfl, rfl, dictGet_dictInsert_self _ _ _⟩

/-- Witness for C9: a one-task store; the present-id hypothesis of the
markCompleted half discharged by evaluation. -/
theorem C9_failing_save_behavior_witness :
    (mark_task_completed_sys_failing_save
      ⟨⟨[(1, ⟨"a", "low", false, 1⟩)], 2⟩, ⟨.doc (.arr []), none⟩⟩ 1 none).1 = .error () ∧
    dictGet (mark_task_completed_sys_failing_save
      ⟨⟨[(1, ⟨"a", "low", false, 1⟩)], 2⟩, ⟨.doc (.arr []), none⟩⟩ 1 none).2.store.tasksById
      1 = some ⟨"a", "low", true, 1⟩ ∧
    (create_task_sys_failing_save
      ⟨⟨[(1, ⟨"a", "low", false, 1⟩)], 2⟩, ⟨.doc (.arr []), none⟩⟩ "b" "high" none).1 =
      .error () := by
  have h := C9_failing_save_behavior
    ⟨⟨[(1, ⟨"a", "low", false, 1⟩)], 2⟩, ⟨.doc (.arr []), none⟩⟩ "b" "high" 1 none
  have hm := h.2.2.2.2.2.2.2 ⟨"a", "low", false, 1⟩ (by decide)
  exact ⟨hm.1, hm.2.2.2.2, h.1⟩

/-! ## C2 — atomicity of the save path -/

/-- **C2 counterexample** — the claim quantifies over *every* save of
the task collection, and cites `storage.save_tasks` among its sources;
but `save_tasks` rewrites `tasks.txt` in place (`open(..., 'w')`
truncates, then `json.dump` writes) with no temporary file and no
rename.  Starting from a valid one-task file, an interruption between
the truncating open and the write leaves an empty file: the previous
valid file is not intact — it now loads as the empty collection instead
of the one task — and no temp file was ever created. -/
theorem C2_counterexample :
    storeTasks (loadFromFile
        (save_tasks_crash (.arr [])
          ⟨.doc (.arr [.obj [("title", .str "a"), ("priority", .str "low"),
                             ("isDone", .bool false), ("id", .int 1)]]), none⟩
          .afterOpen).dest) = [] ∧
    storeTasks (loadFromFile
        (FileContent.doc (.arr [.obj [("title", .str "a"), ("priority", .str "low"),
                                      ("isDone", .bool false), ("id", .int 1)]]))) =
      [⟨"a", "low", false, 1⟩] ∧
    (save_tasks_crash (.arr [])
        ⟨.doc (.arr [.obj [("title", .str "a"), ("priority", .str "low"),
                           ("isDone", .bool false), ("id", .int 1)]]), none⟩
        .afterOpen).tmp = none :=
  ⟨rfl, by decide, rfl⟩

/-- **C2 (amended)** — The *server* store's save,
`TaskStorage._save_to_file_atomic`, serializes the collection ordered by
ascending id and writes atomically: the temp-file write leaves the
destination untouched (an interruption there, before the rename, leaves
the prior file intact and loading exactly as before, with the full new
document sitting in the temp file), the rename installs the complete new
document, and at every interruption point the destination holds either
the old content or the complete new document — never a partial write.
The simple variant's `save_tasks` has none of these properties (see the
counterexample). -/
theorem C2_atomic_save (st : TaskStorage) (fs : FS) :
    (save_to_file_atomic_crash st fs .beforeWrite).dest = fs.dest ∧
    (save_to_file_atomic_crash st fs .afterWrite).dest = fs.dest ∧
    loadFromFile (save_to_file_atomic_crash st fs .afterWrite).dest =
      loadFromFile fs.dest ∧
    (save_to_file_atomic_crash st fs .afterWrite).tmp = some (saveDoc st) ∧
    (save_to_file_atomic st fs).dest = .doc (saveDoc st) ∧
    (∀ c, (save_to_file_atomic_crash st fs c).dest = fs.dest ∨
      (save_to_file_atomic_crash st fs c).dest = .doc (saveDoc st)) ∧
    saveDoc st = .arr ((list_tasks st none none).map asdict) ∧
    List.Pairwise taskLE (list_tasks st none none) := by
  refine ⟨rfl, rfl, rfl, rfl, rfl, ?_, rfl, ?_⟩
  · intro c
    cases c with
    | beforeWrite => exact Or.inl rfl
    | afterWrite => exact Or.inl rfl
    | afterRename => exact Or.inr rfl
  · exact List.sorted_insertionSort taskLE (storeTasks st)

/-! ## C8 — title invariant -/

/-- **C8 counterexample** — the claim extends the trimmed-non-empty
title invariant to states loaded from a persisted file, but
`_load_from_file` only checks `isinstance(title, str)`: a file carrying
an empty title loads verbatim, so the store reaches a state holding a
task with an empty title. -/
theorem C8_counterexample :
    storeTasks (loadFromFile (.doc (.arr
      [.obj [("title", .str ""), ("priority", .str "low"),
             ("isDone", .bool false), ("id", .int 1)]]))) =
      [⟨"", "low", false, 1⟩] ∧
    ∃ t ∈ storeTasks (loadFromFile (.doc (.arr
      [.obj [("title", .str ""), ("priority", .str "low"),
             ("isDone", .bool false), ("id", .int 1)]]))), t.title = "" :=
  ⟨by decide, ⟨"", "low", false, 1⟩, by decide, rfl⟩

/-- **C8 (amended)** — Tasks *created through the POST handler* satisfy
the invariant: a title that strips to the empty string is rejected with
a 400 before any task is created, and an accepted create produces a task
whose title is exactly the stripped request title (non-empty).  The load
path enforces no such thing (see the counterexample), so the invariant
holds of creation, not of every loadable state. -/
theorem C8_created_titles_stripped (s : Sys) (raw priority : String)
    (priorityJ : Option Json) :
    (pyStrip raw = "" → do_POST_create s (some (.str raw)) priorityJ = .error 400) ∧
    (pyStrip raw ≠ "" → priority ∈ ALLOWED_PRIORITIES →
      do_POST_create s (some (.str raw)) (some (.str priority)) =
        .ok (create_task_sys s (pyStrip raw) priority) ∧
      (create_task_sys s (pyStrip raw) priority).1.title = pyStrip raw) := by
  constructor
  · intro h
    simp [do_POST_create, h]
  · intro h hp
    exact ⟨by simp [do_POST_create, h, hp], rfl⟩

/-- Witness for C8: the raw title `"  hi "` strips to `"hi"` and the
create succeeds with that title. -/
theorem C8_created_titles_stripped_witness :
    pyStrip "  hi " ≠ "" ∧
    do_POST_create ⟨⟨[], 1⟩, ⟨.missing, none⟩⟩
        (some (.str "  hi ")) (some (.str "low")) =
      .ok (create_task_sys ⟨⟨[], 1⟩, ⟨.missing, none⟩⟩ (pyStrip "  hi ") "low") ∧
    (create_task_sys ⟨⟨[], 1⟩, ⟨.missing, none⟩⟩ (pyStrip "  hi ") "low").1.title =
      pyStrip "  hi " := by
  have h := (C8_created_titles_stripped ⟨⟨[], 1⟩, ⟨.missing, none⟩⟩ "  hi " "low"
    (some (.str "low"))).2 (by decide) (by decide)
  exact ⟨by decide, h.1, h.2⟩

/-! ## C5 — list filters -/

theorem ids_nodup_of_store (st : TaskStorage) (hk : WellKeyed st) (hnd : KeysNodup st) :
    ((storeTasks st).map (fun t => t.id)).Nodup := by
  have h : (storeTasks st).map (fun t => t.id) = st.tasksById.map (fun p => p.1) := by
    unfold storeTasks
    rw [List.map_map]
    exact List.map_congr_left (fun p hp => (hk p hp).symm)
  rw [h]
  exact hnd

theorem pairwise_lt_of_sorted_nodup (l : List Task)
    (hs : List.Pairwise taskLE l) (hnd : (l.map (fun t => t.id)).Nodup) :
    List.Pairwise (fun a b => a.id < b.id) l := by
  rw [List.Nodup, List.pairwise_map] at hnd
  exact (hs.and hnd).imp (fun h => lt_of_le_of_ne h.1 h.2)

/-- **C5** — For every store with the dict invariants (entries keyed by
the task's own id, distinct keys) and every combination of optional
filters, `list_tasks` returns exactly the tasks in the store matching
all provided filters (AND semantics), in strictly ascending id order.
With the filter `priority = "high"`, this is exactly the subset of tasks
whose priority is `"high"`, ascending by id. -/
theorem C5_list_filters (st : TaskStorage) (isdq : Option Bool) (prq : Option String)
    (hk : WellKeyed st) (hnd : KeysNodup st) :
    (∀ t, t ∈ list_tasks st isdq prq ↔
      (t ∈ storeTasks st ∧ (∀ d, isdq = some d → t.isDone = d) ∧
        (∀ p, prq = some p → t.priority = p))) ∧
    List.Pairwise (fun a b => a.id < b.id) (list_tasks st isdq prq) := by
  have hperm := List.perm_insertionSort taskLE (storeTasks st)
  have hsorted := List.sorted_insertionSort taskLE (storeTasks st)
  have hndid : ((List.insertionSort taskLE (storeTasks st)).map (fun t => t.id)).Nodup :=
    ((hperm.map (fun t => t.id)).nodup_iff).mpr (ids_nodup_of_store st hk hnd)
  have hplt := pairwise_lt_of_sorted_nodup _ hsorted hndid
  constructor
  · intro t
    cases isdq with
    | none =>
      cases prq with
      | none => simp [list_tasks, hperm.mem_iff]
      | some p => simp [list_tasks, List.mem_filter, hperm.mem_iff, and_comm]
    | some d =>
      cases prq with
      | none => simp [list_tasks, List.mem_filter, hperm.mem_iff, and_comm]
      | some p =>
        simp only [list_tasks, List.mem_filter, hperm.mem_iff, beq_iff_eq]
        constructor
        · rintro ⟨⟨hm, hd⟩, hp⟩
          exact ⟨hm, fun d' hd' => by cases hd'; exact hd,
                 fun p' hp' => by cases hp'; exact hp⟩
        · rintro ⟨hm, hd, hp⟩
          exact ⟨⟨hm, hd d rfl⟩, hp p rfl⟩
  · cases isdq with
    | none =>
      cases prq with
      | none => exact hplt
      | some p => exact List.Pairwise.sublist (List.filter_sublist _) hplt
    | some d =>
      cases prq with
      | none => exact List.Pairwise.sublist (List.filter_sublist _) hplt
      | some p =>
        exact List.Pairwise.sublist (List.filter_sublist _)
          (List.Pairwise.sublist (List.filter_sublist _) hplt)

/-- Witness for C5: a two-task store, filtered on priority `"high"`. -/
theorem C5_list_filters_witness :
    (⟨"a", "high", false, 1⟩ : Task) ∈
      list_tasks ⟨[(1, ⟨"a", "high", false, 1⟩), (2, ⟨"b", "low", false, 2⟩)], 3⟩
        none (some "high") ∧
    List.Pairwise (fun a b => a.id < b.id)
      (list_tasks ⟨[(1, ⟨"a", "high", false, 1⟩), (2, ⟨"b", "low", false, 2⟩)], 3⟩
        none (some "high")) := by
  have h := C5_list_filters
    ⟨[(1, ⟨"a", "high", false, 1⟩), (2, ⟨"b", "low", false, 2⟩)], 3⟩
    none (some "high") (by unfold WellKeyed; decide) (by unfold KeysNodup; decide)
  refine ⟨(h.1 ⟨"a", "high", false, 1⟩).mpr ⟨by decide, ?_, ?_⟩, h.2⟩
  · intro d hd
    cases hd
  · intro p hp
    cases hp
    rfl

/-! ## C3 — id monotonicity and next-id recomputation -/

theorem runCreates_ids (calls : List (String × String)) : ∀ st : TaskStorage,
    (runCreates st calls).1 =
      (List.range calls.length).map (fun k : Nat => st.nextTaskId + (k : Int)) := by
  induction calls with
  | nil => intro st; rfl
  | cons c rest ih =>
    intro st
    have h1 : (runCreates st (c :: rest)).1 =
        st.nextTaskId ::
          (runCreates ⟨dictInsert st.tasksById st.nextTaskId
            ⟨c.1, c.2, false, st.nextTaskId⟩, st.nextTaskId + 1⟩ rest).1 := rfl
    rw [h1, ih]
    rw [List.length_cons, List.range_succ_eq_map, List.map_cons, List.map_map]
    congr 1
    · simp
    · apply List.map_congr_left
      intro k _
      show st.nextTaskId + 1 + (k : Int) = st.nextTaskId + ((k + 1 : Nat) : Int)
      push_cast
      ring

theorem validItem_spec (item : Json) (t : Task) (h : validItem item = some t) :
    0 < t.id ∧ t.priority ∈ ALLOWED_PRIORITIES := by
  unfold validItem at h
  split at h
  · split at h
    · split at h
      · next hc =>
        injection h with h'
        subst h'
        exact ⟨hc.2.2, hc.1⟩
      · exact absurd h (by simp)
    · exact absurd h (by simp)
  · exact absurd h (by simp)

theorem loadItems_bounds (items : List Json) : ∀ (loaded : List (Int × Task)) (maxId : Int),
    (∀ p ∈ loaded, p.1 ≤ maxId ∧ p.1 = p.2.id ∧ 0 < p.1) →
    0 ≤ maxId →
    (maxId = 0 ∨ ∃ p ∈ loaded, p.1 = maxId) →
    (∀ p ∈ (loadItems items loaded maxId).1,
        p.1 ≤ (loadItems items loaded maxId).2 ∧ p.1 = p.2.id ∧ 0 < p.1) ∧
    0 ≤ (loadItems items loaded maxId).2 ∧
    ((loadItems items loaded maxId).2 = 0 ∨
      ∃ p ∈ (loadItems items loaded maxId).1, p.1 = (loadItems items loaded maxId).2) := by
  induction items with
  | nil =>
    intro loaded maxId h1 h2 h3
    exact ⟨h1, h2, h3⟩
  | cons item rest ih =>
    intro loaded maxId h1 h2 h3
    cases hv : validItem item with
    | none =>
      simp only [loadItems, hv]
      exact ih loaded maxId h1 h2 h3
    | some t =>
      have hts := validItem_spec item t hv
      simp only [loadItems, hv]
      apply ih
      · intro p hp
        rcases mem_dictInsert_elim loaded t.id t p hp with hpe | ⟨hpd, _⟩
        · rw [hpe]
          exact ⟨le_max_right _ _, rfl, hts.1⟩
        · obtain ⟨hb, hkk, hpp⟩ := h1 p hpd
          exact ⟨le_trans hb (le_max_left _ _), hkk, hpp⟩
      · exact le_trans h2 (le_max_left _ _)
      · right
        rcases le_or_lt maxId t.id with hle | hlt
        · refine ⟨(t.id, t), mem_dictInsert_self _ _ _, ?_⟩
          simp [max_eq_right hle]
        · rcases h3 with h0 | ⟨p, hp, hpk⟩
          · exact absurd (h0 ▸ hlt) (by omega)
          · refine ⟨p, mem_dictInsert_of_ne _ _ _ p hp (by omega), ?_⟩
            rw [max_eq_left (le_of_lt hlt)]
            exact hpk

/-- **C3** — Each `create_task` in a sequence returns an id strictly
greater than all ids returned before it (the ids are exactly
`next, next+1, …`), and — when the store satisfies its invariant that
every stored id is below the counter — strictly greater than every id
already in the store.  Loading a persisted file recomputes the counter
as `max(loaded ids) + 1`: it is `1` when nothing is loaded, exceeds
every loaded id, and is exactly one more than some loaded task's id
otherwise. -/
theorem C3_id_monotonicity (st : TaskStorage) (calls : List (String × String))
    (fc : FileContent) :
    ((runCreates st calls).1 =
      (List.range calls.length).map (fun k : Nat => st.nextTaskId + (k : Int))) ∧
    List.Pairwise (fun a b : Int => a < b) (runCreates st calls).1 ∧
    ((∀ p ∈ st.tasksById, p.1 < st.nextTaskId) →
      ∀ i ∈ (runCreates st calls).1, ∀ p ∈ st.tasksById, p.1 < i) ∧
    (∀ p ∈ (loadFromFile fc).tasksById, p.1 < (loadFromFile fc).nextTaskId) ∧
    (storeTasks (loadFromFile fc) = [] → (loadFromFile fc).nextTaskId = 1) ∧
    (∀ t ∈ storeTasks (loadFromFile fc), t.id < (loadFromFile fc).nextTaskId) ∧
    (storeTasks (loadFromFile fc) ≠ [] →
      ∃ t ∈ storeTasks (loadFromFile fc), (loadFromFile fc).nextTaskId = t.id + 1) := by
  have hids := runCreates_ids calls st
  have hload :
      (∀ p ∈ (loadFromFile fc).tasksById, p.1 < (loadFromFile fc).nextTaskId) ∧
      (storeTasks (loadFromFile fc) = [] → (loadFromFile fc).nextTaskId = 1) ∧
      (∀ t ∈ storeTasks (loadFromFile fc), t.id < (loadFromFile fc).nextTaskId) ∧
      (storeTasks (loadFromFile fc) ≠ [] →
        ∃ t ∈ storeTasks (loadFromFile fc), (loadFromFile fc).nextTaskId = t.id + 1) := by
    have htriv :
        (∀ p ∈ (⟨[], 1⟩ : TaskStorage).tasksById,
          p.1 < (⟨[], 1⟩ : TaskStorage).nextTaskId) ∧
        (storeTasks ⟨[], 1⟩ = [] → (⟨[], 1⟩ : TaskStorage).nextTaskId = 1) ∧
        (∀ t ∈ storeTasks ⟨[], 1⟩, t.id < (⟨[], 1⟩ : TaskStorage).nextTaskId) ∧
        (storeTasks (⟨[], 1⟩ : TaskStorage) ≠ [] →
          ∃ t ∈ storeTasks ⟨[], 1⟩, (⟨[], 1⟩ : TaskStorage).nextTaskId = t.id + 1) := by
      refine ⟨by simp, fun _ => rfl, by simp [storeTasks], fun h => absurd rfl h⟩
    cases fc with
    | missing => exact htriv
    | blank => exact htriv
    | malformed => exact htriv
    | doc j =>
      cases j with
      | arr items =>
        obtain ⟨hb, hm, hatt⟩ := loadItems_bounds items [] 0 (by simp) le_rfl (Or.inl rfl)
        have hst : loadFromFile (.doc (.arr items)) =
            ⟨(loadItems items [] 0).1, (loadItems items [] 0).2 + 1⟩ := rfl
        rw [hst]
        refine ⟨?_, ?_, ?_, ?_⟩
        · intro p hp
          have := (hb p hp).1
          simp only
          omega
        · intro hempty
          simp only [storeTasks, List.map_eq_nil_iff] at hempty
          rcases hatt with h0 | ⟨p, hp, _⟩
          · simp [h0]
          · exact absurd (hempty ▸ hp) (List.not_mem_nil p)
        · intro u hu
          simp only [storeTasks] at hu
          rw [List.mem_map] at hu
          obtain ⟨p, hp, hpu⟩ := hu
          obtain ⟨hble, hkk, _⟩ := hb p hp
          simp only
          rw [← hpu]
          omega
        · intro hne
          rcases hatt with h0 | ⟨p, hp, hpk⟩
          · exfalso
            apply hne
            simp only [storeTasks, List.map_eq_nil_iff]
            by_contra hl
            obtain ⟨q, hq⟩ := List.exists_mem_of_ne_nil _ hl
            have := (hb q hq).2.2
            have := (hb q hq).1
            omega
          · refine ⟨p.2, List.mem_map_of_mem _ hp, ?_⟩
            have hkk := (hb p hp).2.1
            simp only
            omega
      | str s => exact htriv
      | int n => exact htriv
      | float r => exact htriv
      | bool b => exact htriv
      | null => exact htriv
      | obj fields => exact htriv
  refine ⟨hids, ?_, ?_, hload⟩
  · rw [hids, List.pairwise_map]
    refine (List.pairwise_lt_range calls.length).imp ?_
    intro a b h
    show st.nextTaskId + (a : Int) < st.nextTaskId + (b : Int)
    omega
  · intro hinv i hi p hp
    rw [hids] at hi
    rw [List.mem_map] at hi
    obtain ⟨k, _, hik⟩ := hi
    have hpn := hinv p hp
    omega

/-- Witness for C3: the store-invariant hypothesis discharged for a
one-task store, two creates. -/
theorem C3_id_monotonicity_witness :
    List.Pairwise (fun a b : Int => a < b)
      (runCreates ⟨[(1, ⟨"a", "low", false, 1⟩)], 2⟩ [("x", "low"), ("y", "high")]).1 ∧
    (((1 : Int), (⟨"a", "low", false, 1⟩ : Task))).1 < 2 := by
  have h := C3_id_monotonicity ⟨[(1, ⟨"a", "low", false, 1⟩)], 2⟩
    [("x", "low"), ("y", "high")] .missing
  exact ⟨h.2.1,
    h.2.2.1 (by decide) 2 (by decide) ((1 : Int), ⟨"a", "low", false, 1⟩) (by decide)⟩

/-! ## C7 — load-time tolerance and per-record validation -/

theorem getLast?_cons_or (a : Task) (l : List Task) :
    (a :: l).getLast? = (l.getLast?).or (some a) := by
  cases l with
  | nil => rfl
  | cons b m =>
    rw [List.getLast?_cons_cons]
    cases hl : (b :: m).getLast? with
    | none =>
      exfalso
      have := List.getLast?_isSome (l := b :: m)
      rw [hl] at this
      simp at this
    | some x => rfl

theorem loadItems_dictGet (items : List Json) :
    ∀ (loaded : List (Int × Task)) (maxId k : Int),
    dictGet (loadItems items loaded maxId).1 k =
      (((items.filterMap validItem).filter (fun t => t.id = k)).getLast?).or
        (dictGet loaded k) := by
  induction items with
  | nil =>
    intro loaded maxId k
    rfl
  | cons item rest ih =>
    intro loaded maxId k
    cases hv : validItem item with
    | none =>
      simp only [loadItems, hv, List.filterMap_cons_none hv]
      exact ih loaded maxId k
    | some t =>
      simp only [loadItems, hv, List.filterMap_cons_some hv]
      by_cases hk : t.id = k
      · rw [List.filter_cons_of_pos (by simp [hk])]
        rw [ih, getLast?_cons_or]
        have hself : dictGet (dictInsert loaded t.id t) k = some t := by
          rw [← hk]
          exact dictGet_dictInsert_self loaded t.id t
        rw [hself]
        cases hF : (List.filter (fun u => decide (u.id = k))
            (List.filterMap validItem rest)).getLast? <;>
          simp [Option.or]
      · rw [List.filter_cons_of_neg (by simp [hk])]
        rw [ih, dictGet_dictInsert_ne loaded t.id t k (fun he => hk he.symm)]

/-- **C7 counterexample** — two concrete inputs refute the claim as
stated.  First, the claim says an element whose id is not an integer is
silently dropped; but Python's `bool` is a subclass of `int`:
`isinstance(True, int)` holds and `True > 0`, so an element with the
JSON boolean id `true` — not an integer in JSON terms — passes
validation and is kept as the task with id 1.  Second, the claim says
load never raises for any file content; but a file whose bytes are not
valid UTF-8 makes `f.read()` — which runs outside the `try`, which
catches only `json.JSONDecodeError` — raise `UnicodeDecodeError` to the
caller. -/
theorem C7_counterexample :
    validItem (.obj [("title", .str "a"), ("priority", .str "low"),
                     ("isDone", .bool false), ("id", .bool true)]) =
      some ⟨"a", "low", false, 1⟩ ∧
    storeTasks (loadFromFile (.doc (.arr
      [.obj [("title", .str "a"), ("priority", .str "low"),
             ("isDone", .bool false), ("id", .bool true)]]))) =
      [⟨"a", "low", false, 1⟩] ∧
    load_from_file_full .notUtf8 = .error .unicodeDecodeError :=
  ⟨by decide, by decide, rfl⟩

/-- **C7 (amended)** — `_load_from_file` raises only on a file whose
bytes are not valid UTF-8, where the `f.read()` outside the `try`
raises `UnicodeDecodeError` to the caller; for every decodable file
state it returns without raising: a missing file, a blank file,
malformed JSON, and any non-array document all yield the empty
collection; in an array each element is validated independently and the
store's lookup at any id returns exactly the *last* element of the file
that validated to that id (so later duplicates overwrite earlier ones,
and dropped elements contribute nothing); every kept record has a
positive id and an allowed priority — where, per Python's
`isinstance(·, int)`, a JSON boolean id counts as the integer 1 or 0
(`true` is kept as id 1, `false` is dropped as non-positive). -/
theorem C7_load_validation (items : List Json) (k : Int) (s : String) (n : Int)
    (r : String) (b : Bool) (fields : List (String × Json)) (item : Json) (t : Task) :
    loadFromFile .missing = ⟨[], 1⟩ ∧
    loadFromFile .blank = ⟨[], 1⟩ ∧
    loadFromFile .malformed = ⟨[], 1⟩ ∧
    loadFromFile (.doc (.str s)) = ⟨[], 1⟩ ∧
    loadFromFile (.doc (.int n)) = ⟨[], 1⟩ ∧
    loadFromFile (.doc (.float r)) = ⟨[], 1⟩ ∧
    loadFromFile (.doc (.bool b)) = ⟨[], 1⟩ ∧
    loadFromFile (.doc .null) = ⟨[], 1⟩ ∧
    loadFromFile (.doc (.obj fields)) = ⟨[], 1⟩ ∧
    load_from_file_full .missing = .ok (loadFromFile .missing) ∧
    load_from_file_full .blank = .ok (loadFromFile .blank) ∧
    load_from_file_full .malformed = .ok (loadFromFile .malformed) ∧
    (∀ j, load_from_file_full (.doc j) = .ok (loadFromFile (.doc j))) ∧
    load_from_file_full .notUtf8 = .error .unicodeDecodeError ∧
    dictGet (loadFromFile (.doc (.arr items))).tasksById k =
      ((items.filterMap validItem).filter (fun t => t.id = k)).getLast? ∧
    (validItem item = some t → 0 < t.id ∧ t.priority ∈ ALLOWED_PRIORITIES) := by
  refine ⟨rfl, rfl, rfl, rfl, rfl, rfl, rfl, rfl, rfl, rfl, rfl, rfl, fun j => rfl, rfl,
    ?_, validItem_spec item t⟩
  have h := loadItems_dictGet items [] 0 k
  have hload : dictGet (loadFromFile (.doc (.arr items))).tasksById k =
      dictGet (loadItems items [] 0).1 k := rfl
  rw [hload, h]
  cases (List.filter (fun u => decide (u.id = k))
      (List.filterMap validItem items)).getLast? <;> rfl

/-- Witness for C7: a file with two records sharing id 1 — the lookup
returns the later one — and the validity implication discharged on a
concrete record. -/
theorem C7_load_validation_witness :
    dictGet (loadFromFile (.doc (.arr
      [.obj [("title", .str "first"), ("priority", .str "low"),
             ("isDone", .bool false), ("id", .int 1)],
       .obj [("title", .str "second"), ("priority", .str "high"),
             ("isDone", .bool true), ("id", .int 1)]]))).tasksById 1 =
      (([.obj [("title", .str "first"), ("priority", .str "low"),
               ("isDone", .bool false), ("id", .int 1)],
         .obj [("title", .str "second"), ("priority", .str "high"),
               ("isDone", .bool true), ("id", .int 1)]].filterMap validItem).filter
        (fun t => t.id = 1)).getLast? ∧
    (0 < (Task.mk "second" "high" true 1).id ∧
      (Task.mk "second" "high" true 1).priority ∈ ALLOWED_PRIORITIES) := by
  obtain ⟨-, -, -, -, -, -, -, -, -, -, -, -, -, -, hd, hv⟩ := C7_load_validation
    [.obj [("title", .str "first"), ("priority", .str "low"),
           ("isDone", .bool false), ("id", .int 1)],
     .obj [("title", .str "second"), ("priority", .str "high"),
           ("isDone", .bool true), ("id", .int 1)]] 1 "" 0 "" false []
    (.obj [("title", .str "second"), ("priority", .str "high"),
           ("isDone", .bool true), ("id", .int 1)]) ⟨"second", "high", true, 1⟩
  exact ⟨hd, hv (by decide)⟩

/-! ## C1 — save/load round-trip -/

theorem validItem_asdict (t : Task) (h1 : 0 < t.id)
    (h2 : t.priority ∈ ALLOWED_PRIORITIES) : validItem (asdict t) = some t := by
  show (if t.priority ∈ ALLOWED_PRIORITIES ∧ true = true ∧ 0 < t.id
        then some (⟨t.title, t.priority, t.isDone, t.id⟩ : Task) else none) = some t
  rw [if_pos ⟨h2, rfl, h1⟩]

theorem loadItems_fresh_append (l : List Task) :
    ∀ (loaded : List (Int × Task)) (m : Int),
    (∀ t ∈ l, 0 < t.id ∧ t.priority ∈ ALLOWED_PRIORITIES) →
    (∀ t ∈ l, ∀ p ∈ loaded, p.1 ≠ t.id) →
    (l.map (fun t => t.id)).Nodup →
    (loadItems (l.map asdict) loaded m).1 = loaded ++ l.map (fun t => (t.id, t)) := by
  induction l with
  | nil =>
    intro loaded m _ _ _
    simp [loadItems]
  | cons t l' ih =>
    intro loaded m hval hfresh hnd
    have hv := validItem_asdict t (hval t (List.mem_cons_self t l')).1
      (hval t (List.mem_cons_self t l')).2
    simp only [List.map_cons, loadItems, hv]
    rw [dictInsert_of_fresh loaded t.id t
      (fun p hp => hfresh t (List.mem_cons_self t l') p hp)]
    rw [List.map_cons, List.nodup_cons] at hnd
    rw [ih (loaded ++ [(t.id, t)]) (max m t.id)
      (fun u hu => hval u (List.mem_cons_of_mem t hu))
      ?_ hnd.2]
    · rw [List.append_assoc, List.singleton_append]
    · intro u hu p hp
      rcases List.mem_append.mp hp with hp' | hp'
      · exact hfresh u (List.mem_cons_of_mem t hu) p hp'
      · rw [List.mem_singleton] at hp'
        rw [hp']
        intro he
        have hm : u.id ∈ l'.map (fun u => u.id) := List.mem_map_of_mem (fun u => u.id) hu
        rw [← he] at hm
        exact hnd.1 hm

/-- **C1** — For every valid collection (dict keyed by the tasks' own
distinct ids; every task with a positive id, an allowed priority, and a
non-empty title), saving via `_save_to_file_atomic`'s document and
loading that document back yields the same tasks up to order
(a permutation of the original collection). -/
theorem C1_save_load_roundtrip (st : TaskStorage)
    (hk : WellKeyed st) (hnd : KeysNodup st)
    (hval : ∀ t ∈ storeTasks st,
      0 < t.id ∧ t.priority ∈ ALLOWED_PRIORITIES ∧ t.title ≠ "") :
    (storeTasks (loadFromFile (.doc (saveDoc st)))).Perm (storeTasks st) := by
  have hperm := List.perm_insertionSort taskLE (storeTasks st)
  have hndid : ((List.insertionSort taskLE (storeTasks st)).map (fun t => t.id)).Nodup :=
    ((hperm.map (fun t => t.id)).nodup_iff).mpr (ids_nodup_of_store st hk hnd)
  have h1 : (loadItems ((List.insertionSort taskLE (storeTasks st)).map asdict) [] 0).1 =
      (List.insertionSort taskLE (storeTasks st)).map (fun t => (t.id, t)) := by
    rw [loadItems_fresh_append (List.insertionSort taskLE (storeTasks st)) [] 0
      (fun u hu => ⟨(hval u (hperm.mem_iff.mp hu)).1, (hval u (hperm.mem_iff.mp hu)).2.1⟩)
      (fun u _ p hp => absurd hp (List.not_mem_nil p)) hndid]
    rfl
  have h2 : storeTasks (loadFromFile (.doc (saveDoc st))) =
      List.insertionSort taskLE (storeTasks st) := by
    have h3 : storeTasks (loadFromFile (.doc (saveDoc st))) =
        ((loadItems ((List.insertionSort taskLE (storeTasks st)).map asdict) [] 0).1).map
          (fun p => p.2) := rfl
    rw [h3, h1, List.map_map]
    exact List.map_id _
  rw [h2]
  exact hperm

/-- Witness for C1: a concrete valid two-task store; all hypotheses
discharged by evaluation. -/
theorem C1_save_load_roundtrip_witness :
    (storeTasks (loadFromFile (.doc (saveDoc
      ⟨[(2, ⟨"b", "high", true, 2⟩), (1, ⟨"a", "low", false, 1⟩)], 3⟩)))).Perm
      (storeTasks ⟨[(2, ⟨"b", "high", true, 2⟩), (1, ⟨"a", "low", false, 1⟩)], 3⟩) :=
  C1_save_load_roundtrip ⟨[(2, ⟨"b", "high", true, 2⟩), (1, ⟨"a", "low", false, 1⟩)], 3⟩
    (by unfold WellKeyed; decide) (by unfold KeysNodup; decide) (by decide)

end TaskServer
